import Mathlib

/-!
Shallow embedding of `nqdc`'s data-extraction stage
(`src/nqdc/_data_extraction.py` and `src/nqdc/_text.py`) and verification of
its specification.

The article payload is an abstract type `α`: the concrete extractors
(`CoordinateExtractor`, `MetadataExtractor`) live outside this corpus and are
treated as opaque functions, per the spec's Extractor Capability contract.
Filesystem state (directory entries, parse outcomes, writer I/O failures) is
made explicit so that the traversal, the streaming loop and the failure paths
can be reasoned about.
-/

namespace Nqdc

/-- A file or directory name: its character sequence.  Python compares path
names lexicographically by code point, which is the lexicographic order on
the character list. -/
abbrev Name := List Char

/-- A file inside a shard directory of the corpus.  `parse` is the outcome of
`etree.parse` on the file: `some a` for a well-formed article, `none` when
parsing raises. -/
structure FileEntry (α : Type) where
  name : Name
  parse : Option α
deriving DecidableEq

/-- One entry of the corpus root, as enumerated by `articles_dir.glob("*")`:
its name, whether it is a directory, and the files it contains, in arbitrary
filesystem enumeration order. -/
structure DirEntry (α : Type) where
  name : Name
  is_dir : Bool
  files : List (FileEntry α)
deriving DecidableEq

/-- The corpus root (`articles_dir`).  `present` records whether the path
exists on disk; `entries` are its directory entries in arbitrary filesystem
enumeration order. -/
structure Corpus (α : Type) where
  present : Bool
  entries : List (DirEntry α)
deriving DecidableEq

/-- Errors that can escape the pipeline: a missing input path
(`_utils.assertExists`) or an I/O failure raised by a table writer's append,
tagged with the writer's name. -/
inductive NqdcError where
  | missingPath : NqdcError
  | writerFailure : String → NqdcError
deriving DecidableEq

/-- Modelled from the spec: `nqdc._utils.assert_exists` is imported by
`_data_extraction.py` but its definition is not part of this corpus.  Per the
spec ("Fails fast (before any iteration) if the corpus root does not exist",
"Precondition failure (missing corpus root ...) — fatal, raised before any
streaming starts"), it raises when the path does not exist and returns
normally otherwise. -/
def assertExists (present : Bool) : Except NqdcError Unit :=
  if present then .ok () else .error .missingPath

/-- Whether a filename matches the glob pattern `pmcid_*.xml` used in
`iter_articles` (`subdir.glob("pmcid_*.xml")`). -/
def matches_pmcid_xml (name : Name) : Bool :=
  "pmcid_".toList.isPrefixOf name && ".xml".toList.isSuffixOf name

/-- Python's `sorted` applied to values compared through a `String` key
(`Path` objects compare by their textual representation).  Modelled by a
stable structural sort. -/
def sorted_by (key : β → Name) (l : List β) : List β :=
  l.insertionSort (fun a b => key a ≤ key b)

/-- The article files of one shard directory, in visit order:
`sorted(subdir.glob("pmcid_*.xml"))`. -/
def shard_files (d : DirEntry α) : List (FileEntry α) :=
  sorted_by (fun f => f.name) (d.files.filter (fun f => matches_pmcid_xml f.name))

/-- The complete file visit order of `iter_articles`'s nested loops:
`sorted([f for f in articles_dir.glob("*") if f.is_dir()])`, then inside each
shard `sorted(subdir.glob("pmcid_*.xml"))`. -/
def article_files_in_order (c : Corpus α) : List (FileEntry α) :=
  (sorted_by (fun d => d.name) (c.entries.filter (fun d => d.is_dir))).flatMap shard_files

/-- The observable outcome of a full run of the `iter_articles` generator:
the articles yielded, the `n_failures` counter and the `n_articles` counter
(which counts every visited file, parsed or not — it only drives the progress
log). -/
structure IterArticlesResult (α : Type) where
  articles : List α
  n_failures : Nat
  n_articles : Nat
deriving DecidableEq

/-- The body of `iter_articles`'s loop over article files: try to parse each
file; on failure increment `n_failures`, log, and skip it; on success yield
it; in either case the `finally` block increments `n_articles`. -/
def iter_loop (files : List (FileEntry α)) (acc : IterArticlesResult α) :
    IterArticlesResult α :=
  match files with
  | [] => acc
  | f :: rest =>
    match f.parse with
    | none => iter_loop rest ⟨acc.articles, acc.n_failures + 1, acc.n_articles + 1⟩
    | some a => iter_loop rest ⟨acc.articles ++ [a], acc.n_failures, acc.n_articles + 1⟩

/-- `iter_articles`: checks that the corpus root exists, then walks shard
directories sorted by name and, inside each, the `pmcid_*.xml` files sorted by
name, yielding the articles that parse and counting the files that do not.
As in the generator, the existence check fires before the first yield; an
error therefore means no article was produced. -/
def iter_articles (articles_dir : Corpus α) : Except NqdcError (IterArticlesResult α) :=
  match assertExists articles_dir.present with
  | .error e => .error e
  | .ok _ => .ok (iter_loop (article_files_in_order articles_dir) ⟨[], 0, 0⟩)

/-- The registered extractors, per the spec's Extractor Capability contract:
`CoordinateExtractor` and `MetadataExtractor` are outside this corpus, and
`TextExtractor.extract` is verified separately on its own embedding, so each
is an opaque function from an article to the output value it produces.  The
field order mirrors the `data_extractors` list in `extract_data`. -/
structure ExtractorSet (α V : Type) where
  coordinates : α → V
  metadata : α → V
  text : α → V

/-- An Article Record: the dict built by `extract_data` for one article,
mapping extractor name to extractor output, in insertion order. -/
abbrev Record (V : Type) := List (String × V)

/-- The dict comprehension in `extract_data`:
`{extractor.name: extractor.extract(article) for extractor in data_extractors}`
with `data_extractors = [CoordinateExtractor(), MetadataExtractor(), TextExtractor()]`. -/
def article_record (ex : ExtractorSet α V) (article : α) : Record V :=
  [("coordinates", ex.coordinates article),
   ("metadata", ex.metadata article),
   ("text", ex.text article)]

/-- `extract_data`: asserts the corpus root exists, then yields one Article
Record per article produced by `iter_articles`.  The `articles_with_coords_only`
parameter is accepted exactly as in the source, where the function body never
reads it. -/
def extract_data (ex : ExtractorSet α V) (articles_dir : Corpus α)
    (articles_with_coords_only : Bool) : Except NqdcError (List (Record V)) :=
  match assertExists articles_dir.present with
  | .error e => .error e
  | .ok _ =>
    match iter_articles articles_dir with
    | .error e => .error e
    | .ok res => .ok (res.articles.map (article_record ex))

/-- `_get_output_dir`: when no output directory is supplied, derive a sibling
of `articles_dir` named after the subset; otherwise use the supplied one.
Paths are lists of components; `Path.with_name` replaces the last component. -/
def get_output_dir (articles_dir : List String) (output_dir : Option (List String))
    (articles_with_coords_only : Bool) : List String :=
  match output_dir with
  | none =>
    let subset_name := if articles_with_coords_only then "articlesWithCoords" else "allArticles"
    articles_dir.dropLast ++ ["subset_" ++ subset_name ++ "_extractedData"]
  | some d => d

/-- Modelled from the spec: `nqdc._writers.CSVWriter` is not part of this
corpus.  Per the spec (§4.3, §6), a Table Writer has a stable `name`, a scoped
open/append/close lifecycle, and `write(record)` appends the part of the
record it owns to its backing file; an append may raise an I/O error.  The
model keeps the observable state — the records appended so far and whether
the writer has been closed (backing file flushed) — and a fault plan
`failsAt k` saying whether the k-th append raises. -/
structure CSVWriter (V : Type) where
  name : String
  failsAt : Nat → Bool
  written : List (Record V)
  closed : Bool

/-- Fault plans for the three registered writers, one per table. -/
structure WriterPlans where
  metadata : Nat → Bool
  text : Nat → Bool
  coordinates : Nat → Bool

/-- The `all_writers` list of `extract_data_to_csv`, freshly constructed and
then entered via the `ExitStack` (so all are open, nothing written yet), in
the order of the source: metadata, text, coordinates. -/
def open_writers (plans : WriterPlans) : List (CSVWriter V) :=
  [⟨"metadata", plans.metadata, [], false⟩,
   ⟨"text", plans.text, [], false⟩,
   ⟨"coordinates", plans.coordinates, [], false⟩]

/-- `ExitStack` unwinding: every writer that was entered is closed, whether
the block exits normally or by exception. -/
def close_all (writers : List (CSVWriter V)) : List (CSVWriter V) :=
  writers.map (fun w => { w with closed := true })

/-- The inner fan-out loop `for writer in all_writers: writer.write(article_data)`.
Writers append in list order; if one raises, the earlier writers keep the
record they already appended and the later ones never see it.  Returns the
updated writers and the name of the failing writer, if any. -/
def write_to_all (writers : List (CSVWriter V)) (record : Record V) :
    List (CSVWriter V) × Option String :=
  match writers with
  | [] => ([], none)
  | w :: rest =>
    if w.failsAt w.written.length then (w :: rest, some w.name)
    else
      let step := write_to_all rest record
      ({ w with written := w.written ++ [record] } :: step.1, step.2)

/-- The streaming loop of `extract_data_to_csv`: for each Article Record,
increment `n_articles`, then hand the record to every writer; a writer
exception aborts the stream. -/
def stream_loop (writers : List (CSVWriter V)) (records : List (Record V))
    (n_articles : Nat) : List (CSVWriter V) × Nat × Option String :=
  match records with
  | [] => (writers, n_articles, none)
  | r :: rest =>
    let step := write_to_all writers r
    match step.2 with
    | some wname => (step.1, n_articles + 1, some wname)
    | none => stream_loop step.1 rest (n_articles + 1)

/-- Everything observable about one run of `extract_data_to_csv`: whether the
output directory was created, where, the final writer states, the contents of
`info.json` when it was written, and what the call returned or raised. -/
structure RunResult (V : Type) where
  output_dir_created : Bool
  output_dir : Option (List String)
  writers : List (CSVWriter V)
  info_json : Option Nat
  returned : Except NqdcError (List String × Nat)

/-- `extract_data_to_csv`: assert the corpus root exists, resolve and create
the output directory, open all writers inside one `ExitStack`, stream Article
Records from `extract_data` through every writer, and on clean completion
write `info.json` with the processed count and return `(output_dir, 0)`.
If the corpus root is missing, the call raises before creating the output
directory or opening a writer.  If a writer's append raises, the `ExitStack`
closes every opened writer, no `info.json` is written, and the exception
reaches the caller. -/
def extract_data_to_csv (ex : ExtractorSet α V) (plans : WriterPlans)
    (articles_path : List String) (articles_dir : Corpus α)
    (output_dir : Option (List String)) (articles_with_coords_only : Bool) :
    RunResult V :=
  match assertExists articles_dir.present with
  | .error e => ⟨false, none, [], none, .error e⟩
  | .ok _ =>
    let out := get_output_dir articles_path output_dir articles_with_coords_only
    let all_writers : List (CSVWriter V) := open_writers plans
    match extract_data ex articles_dir articles_with_coords_only with
    | .error e => ⟨true, some out, close_all all_writers, none, .error e⟩
    | .ok records =>
      match stream_loop all_writers records 0 with
      | (ws, _, some wname) =>
        ⟨true, some out, close_all ws, none, .error (.writerFailure wname)⟩
      | (ws, n, none) =>
        ⟨true, some out, close_all ws, some n, .ok (out, 0)⟩

/-- An element of a transformed document (an `lxml` element): its `text`
attribute may be `None`. -/
structure XmlElem where
  text : Option String
deriving DecidableEq

/-- The result of a successful XSLT transform of one article.  `find p`
returns the first element named `p`, or `none` when there is no such element
— in which case the attribute access `elem.text` in the source raises
`AttributeError`. -/
structure TransformedDoc where
  find : String → Option XmlElem

/-- Python exceptions that can escape `_extract_text_from_article` after a
successful transform: `AttributeError` from `elem.text` when `find` returned
`None`, `TypeError` from `int(None)`, `ValueError` from `int` of a
non-numeric string. -/
inductive PyError where
  | attributeError : PyError
  | typeError : PyError
  | valueError : PyError
deriving DecidableEq

/-- `TextExtractor.fields`. -/
def text_extractor_fields : List String :=
  ["pmcid", "title", "keywords", "abstract", "body"]

/-- Python's `int(...)` applied to `result["pmcid"]`, an optional string:
`int(None)` raises `TypeError`; a string that is not an integer literal
raises `ValueError`. -/
def pyInt (s : Option String) : Except PyError Int :=
  match s with
  | none => .error .typeError
  | some t =>
    match t.toInt? with
    | some n => .ok n
    | none => .error .valueError

/-- One value of the `result` dict of `_extract_text_from_article`: each part
is the optional string `elem.text`, except `pmcid`, overwritten with the
integer `int(result["pmcid"])`. -/
inductive TextValue where
  | str : Option String → TextValue
  | int : Int → TextValue
deriving DecidableEq

/-- The loop `for part_name in self.fields: elem = transformed.find(part_name);
result[part_name] = elem.text`.  When `find` returns `None`, the attribute
access `elem.text` raises `AttributeError`; the source does not catch it. -/
def collect_parts (transformed : TransformedDoc) :
    List String → Except PyError (List (String × Option String))
  | [] => .ok []
  | p :: rest =>
    match transformed.find p with
    | none => .error .attributeError
    | some elem => do
      let tail ← collect_parts transformed rest
      pure ((p, elem.text) :: tail)

/-- `TextExtractor._extract_text_from_article`, which is also the whole body
of `TextExtractor.extract`: apply the stylesheet to the article; if the
transform raises, log and return the (empty) `result` dict; otherwise fill
`result` with each part's `elem.text` and overwrite `result["pmcid"]` with
`int(result["pmcid"])`.  Only the transform call sits inside the
`try/except`; the part loop and the `int` conversion are outside it, so their
exceptions propagate to the caller.  (`"pmcid"` is always present in `result`
here because it is the first entry of `fields`; the unreachable missing-key
case maps to the same error as `int(None)`.) -/
def extract_text_from_article (stylesheet : α → Except String TransformedDoc)
    (article : α) : Except PyError (List (String × TextValue)) :=
  match stylesheet article with
  | .error _ => .ok []
  | .ok transformed =>
    match collect_parts transformed text_extractor_fields with
    | .error e => .error e
    | .ok result =>
      match pyInt (Option.join (result.lookup "pmcid")) with
      | .error e => .error e
      | .ok n =>
        .ok (result.map (fun kv =>
          (kv.1, if kv.1 = "pmcid" then TextValue.int n else TextValue.str kv.2)))

/-- A concrete extractor output value, rich enough for the concrete
scenarios: a table of coordinate rows (the coordinate extractor yields a
DataFrame with zero or more rows per article) or a mapping of scalar
fields. -/
inductive FieldValue where
  | table : List (List Int) → FieldValue
  | mapping : List (String × Option String) → FieldValue
deriving DecidableEq

/-- A shard reduced to what the traversal consumes: its name and its sorted
matching files. -/
def shard_keyed (d : DirEntry α) : Name × List (FileEntry α) :=
  (d.name, shard_files d)

/-- Two directory entries describing the same on-disk shard: same name, same
kind, and the same files up to enumeration order. -/
def DirEntry.SameDir (d₁ d₂ : DirEntry α) : Prop :=
  d₁.name = d₂.name ∧ d₁.is_dir = d₂.is_dir ∧ d₁.files.Perm d₂.files

/-- Two corpus roots describing the same unchanged directory tree, possibly
enumerated by the filesystem in different orders: same existence, and the
entry list of one is a permutation of an entry list pointwise `SameDir` to
the other's. -/
def Corpus.SameTree (c₁ c₂ : Corpus α) : Prop :=
  c₁.present = c₂.present ∧
    ∃ l, c₁.entries.Perm l ∧ List.Forall₂ DirEntry.SameDir l c₂.entries

/-- The Article Records a run over a present corpus assembles: one per
parseable article, in traversal order. -/
def assembled_records (ex : ExtractorSet α V) (c : Corpus α) : List (Record V) :=
  ((article_files_in_order c).filterMap (fun f => f.parse)).map (article_record ex)

/-! ### Concrete inputs for the scenarios -/

/-- A tiny concrete corpus: shard `000` holds one parseable article file. -/
def tinyCorpus : Corpus Nat :=
  ⟨true, [⟨"000".toList, true, [⟨"pmcid_1.xml".toList, some 1⟩]⟩]⟩

/-- The §8 scenario corpus: shard `000` with two parseable articles and one
malformed file, shard `001` with one parseable article, plus a stray
non-directory entry and a file not matching `pmcid_*.xml`. -/
def sampleCorpus : Corpus Nat :=
  ⟨true,
   [⟨"001".toList, true, [⟨"pmcid_9.xml".toList, some 9⟩, ⟨"README".toList, some 99⟩]⟩,
    ⟨"000".toList, true, [⟨"pmcid_5.xml".toList, some 5⟩, ⟨"pmcid_2.xml".toList, none⟩, ⟨"pmcid_1.xml".toList, some 1⟩]⟩,
    ⟨"stray.txt".toList, false, []⟩]⟩

/-- `sampleCorpus` with one extra unparsable article file inserted into
shard `000`. -/
def corruptedCorpus : Corpus Nat :=
  ⟨true,
   [⟨"001".toList, true, [⟨"pmcid_9.xml".toList, some 9⟩, ⟨"README".toList, some 99⟩]⟩,
    ⟨"000".toList, true,
     [⟨"pmcid_3.xml".toList, none⟩, ⟨"pmcid_5.xml".toList, some 5⟩,
      ⟨"pmcid_2.xml".toList, none⟩, ⟨"pmcid_1.xml".toList, some 1⟩]⟩,
    ⟨"stray.txt".toList, false, []⟩]⟩

/-- A present corpus with no entries at all: a run over it processes zero
documents. -/
def emptyCorpus : Corpus Nat := ⟨true, []⟩

/-- A corpus root that does not exist on disk. -/
def missingCorpus : Corpus Nat :=
  ⟨false, [⟨"000".toList, true, [⟨"pmcid_1.xml".toList, some 1⟩]⟩]⟩

/-- Concrete extractors for the scenarios: article `9` has no extracted
coordinates (its coordinate table has zero rows), every other article has
one coordinate row. -/
def sampleExtractors : ExtractorSet Nat FieldValue :=
  ⟨fun a => .table (if a = 9 then [] else [[Int.ofNat a, 0, 0]]),
   fun a => .mapping [("pmcid", some (toString a))],
   fun _ => .mapping []⟩

/-- A fault plan under which an append never raises. -/
def neverFails : Nat → Bool := fun _ => false

/-- Writer plans with no failures. -/
def sampleWriterPlans : WriterPlans := ⟨neverFails, neverFails, neverFails⟩

/-- Writer plans where the text writer raises on its second append. -/
def textFailsSecond : WriterPlans := ⟨neverFails, fun k => k = 1, neverFails⟩

/-- The same on-disk tree as `sampleCorpus`, enumerated by the filesystem in
a different order (entries reversed, files within each shard shuffled). -/
def shuffledCorpus : Corpus Nat :=
  ⟨true,
   [⟨"stray.txt".toList, false, []⟩,
    ⟨"000".toList, true,
     [⟨"pmcid_1.xml".toList, some 1⟩, ⟨"pmcid_5.xml".toList, some 5⟩,
      ⟨"pmcid_2.xml".toList, none⟩]⟩,
    ⟨"001".toList, true,
     [⟨"README".toList, some 99⟩, ⟨"pmcid_9.xml".toList, some 9⟩]⟩]⟩

/-- A corpus holding exactly one parseable article (`9`), whose coordinate
extraction yields zero rows under `sampleExtractors`. -/
def noCoordsCorpus : Corpus Nat :=
  ⟨true, [⟨"000".toList, true, [⟨"pmcid_9.xml".toList, some 9⟩]⟩]⟩

/-- A stylesheet whose transform succeeds but produces a transformed document
containing no elements at all. -/
def emptyTransformSheet : Unit → Except String TransformedDoc :=
  fun _ => .ok ⟨fun _ => none⟩

/-- A stylesheet whose transform raises on every article. -/
def failingSheet : Unit → Except String TransformedDoc :=
  fun _ => .error "transform failed"

/-! ### Helper lemmas -/

/-- Running the `iter_articles` loop over a file list yields exactly the
parseable files' articles (in order), counts the unparseable ones in
`n_failures`, and counts every visited file in `n_articles`. -/
theorem iter_loop_spec (files : List (FileEntry α)) (acc : IterArticlesResult α) :
    iter_loop files acc =
      ⟨acc.articles ++ files.filterMap (fun f => f.parse),
       acc.n_failures + files.countP (fun f => f.parse.isNone),
       acc.n_articles + files.length⟩ := by
  induction files generalizing acc with
  | nil => simp [iter_loop]
  | cons f rest ih =>
    cases hp : f.parse with
    | none =>
      simp [iter_loop, hp, ih, List.countP_cons, IterArticlesResult.mk.injEq]
      omega
    | some a =>
      simp [iter_loop, hp, ih, List.countP_cons, IterArticlesResult.mk.injEq]
      omega

/-- If no writer raised while fanning one record out, every writer appended
exactly that record. -/
theorem write_to_all_none (writers : List (CSVWriter V)) (r : Record V)
    (h : (write_to_all writers r).2 = none) :
    (write_to_all writers r).1 =
      writers.map (fun w => { w with written := w.written ++ [r] }) := by
  induction writers with
  | nil => simp [write_to_all]
  | cons w rest ih =>
    by_cases hf : w.failsAt w.written.length
    · simp [write_to_all, hf] at h
    · simp only [write_to_all, hf, Bool.false_eq_true, if_false, List.map_cons] at h ⊢
      exact congrArg _ (ih h)

/-- If the streaming loop completed without a writer exception, every writer
received every record, in order, and the article counter advanced by the
number of records. -/
theorem stream_loop_none (records : List (Record V)) (writers : List (CSVWriter V)) (n : Nat)
    (h : (stream_loop writers records n).2.2 = none) :
    (stream_loop writers records n).1 =
        writers.map (fun w => { w with written := w.written ++ records }) ∧
      (stream_loop writers records n).2.1 = n + records.length := by
  induction records generalizing writers n with
  | nil => simp [stream_loop]
  | cons r rest ih =>
    cases hw : (write_to_all writers r).2 with
    | some wname => simp [stream_loop, hw] at h
    | none =>
      have hw1 := write_to_all_none writers r hw
      simp only [stream_loop, hw, hw1] at h ⊢
      obtain ⟨h1, h2⟩ := ih _ _ h
      constructor
      · rw [h1, List.map_map]
        refine List.map_congr_left (fun w _ => ?_)
        simp [List.append_assoc]
      · rw [h2, List.length_cons]; omega

/-- The output of `sorted_by` is sorted with respect to its key. -/
theorem sorted_by_pairwise (key : β → Name) (l : List β) :
    List.Pairwise (fun a b => key a ≤ key b) (sorted_by key l) := by
  haveI : IsTotal β (fun a b => key a ≤ key b) := ⟨fun a b => le_total (key a) (key b)⟩
  haveI : IsTrans β (fun a b => key a ≤ key b) := ⟨fun _ _ _ h h' => le_trans h h'⟩
  exact List.sorted_insertionSort _ l

/-- `sorted_by` permutes its input. -/
theorem sorted_by_perm (key : β → Name) (l : List β) : (sorted_by key l).Perm l :=
  List.perm_insertionSort _ l

/-- On a list with pairwise-distinct keys, `sorted_by` is strictly sorted. -/
theorem sorted_by_strict (key : β → Name) (l : List β) (hn : (l.map key).Nodup) :
    List.Pairwise (fun a b => key a < key b) (sorted_by key l) := by
  have hn' : ((sorted_by key l).map key).Nodup :=
    (((sorted_by_perm key l).map key).nodup_iff).mpr hn
  have hne : List.Pairwise (fun a b => key a ≠ key b) (sorted_by key l) :=
    List.pairwise_map.mp hn'
  exact ((sorted_by_pairwise key l).and hne).imp (fun h => lt_of_le_of_ne h.1 h.2)

/-- Sorting by pairwise-distinct keys does not depend on the enumeration
order of the input list. -/
theorem sorted_by_eq_of_perm (key : β → Name) {l₁ l₂ : List β}
    (hp : l₁.Perm l₂) (hn : (l₁.map key).Nodup) :
    sorted_by key l₁ = sorted_by key l₂ := by
  haveI : IsAntisymm β (fun a b => key a < key b) :=
    ⟨fun a b h h' => absurd (lt_trans h h') (lt_irrefl _)⟩
  have hp' : (sorted_by key l₁).Perm (sorted_by key l₂) :=
    ((sorted_by_perm key l₁).trans hp).trans (sorted_by_perm key l₂).symm
  have hn₂ : (l₂.map key).Nodup := ((hp.map key).nodup_iff).mp hn
  exact List.eq_of_perm_of_sorted hp'
    (sorted_by_strict key l₁ hn) (sorted_by_strict key l₂ hn₂)

/-- `sorted_by` commutes with mapping a key-preserving function. -/
theorem map_sorted_by (f : β → γ) (keyb : β → Name) (keyc : γ → Name)
    (hk : ∀ b, keyc (f b) = keyb b) (l : List β) :
    (sorted_by keyb l).map f = sorted_by keyc (l.map f) := by
  apply List.map_insertionSort
  intro a _ b _
  rw [hk a, hk b]

/-- `Forall₂` survives filtering by a predicate the relation preserves. -/
theorem forall₂_filter {R : β → β → Prop} {p : β → Bool} {l l' : List β}
    (h : List.Forall₂ R l l') (hp : ∀ a b, R a b → p a = p b) :
    List.Forall₂ R (l.filter p) (l'.filter p) := by
  induction h with
  | nil => exact List.Forall₂.nil
  | cons hab hrest ih =>
    rename_i a b as bs
    rw [List.filter_cons, List.filter_cons, ← hp a b hab]
    by_cases hpa : p a
    · simp only [hpa, if_true]
      exact List.Forall₂.cons hab ih
    · simp only [hpa, if_false]
      exact ih

/-- Mapping a function that identifies `Forall₂`-related elements yields
equal lists. -/
theorem map_eq_of_forall₂ {R : β → β → Prop} {f : β → γ} {l l' : List β}
    (h : List.Forall₂ R l l') (hf : ∀ a ∈ l, ∀ b, R a b → f a = f b) :
    l.map f = l'.map f := by
  induction h with
  | nil => rfl
  | cons hab hrest ih =>
    rename_i a b as bs
    simp only [List.map_cons]
    rw [hf a (List.mem_cons_self a as) b hab,
      ih (fun x hx y hy => hf x (List.mem_cons_of_mem a hx) y hy)]

/-- Two `SameDir` shards with distinct file names produce the same sorted
matching file list. -/
theorem shard_files_eq_of_perm {d₁ d₂ : DirEntry α}
    (hfp : d₁.files.Perm d₂.files)
    (hnd : (d₁.files.map (fun f => f.name)).Nodup) :
    shard_files d₁ = shard_files d₂ := by
  unfold shard_files
  apply sorted_by_eq_of_perm _ (hfp.filter _)
  exact hnd.sublist ((List.filter_sublist _).map _)

/-- Memberwise congruence for `flatMap`. -/
theorem flatMap_congr_mem {f h : β → List γ} {l : List β}
    (H : ∀ x ∈ l, f x = h x) : l.flatMap f = l.flatMap h := by
  induction l with
  | nil => rfl
  | cons a as ih =>
    rw [List.flatMap_cons, List.flatMap_cons, H a (List.mem_cons_self a as),
      ih (fun x hx => H x (List.mem_cons_of_mem a hx))]

/-- Where a freshly inserted element lands in the sorted order: when keys are
distinct, sorting `b :: l` is the sorting of `l` with `b` spliced in at one
position. -/
theorem sorted_by_cons_split (key : β → Name) (b : β) (l : List β)
    (hn : ((b :: l).map key).Nodup) :
    ∃ u v, sorted_by key (b :: l) = u ++ b :: v ∧ sorted_by key l = u ++ v := by
  haveI : IsAntisymm β (fun a c => key a < key c) :=
    ⟨fun a c h h' => absurd (lt_trans h h') (lt_irrefl _)⟩
  have hb : b ∈ sorted_by key (b :: l) :=
    ((sorted_by_perm key (b :: l)).mem_iff).mpr (List.mem_cons_self b l)
  obtain ⟨u, v, huv⟩ := List.append_of_mem hb
  refine ⟨u, v, huv, ?_⟩
  have hperm : (u ++ v).Perm l := by
    have h1 : (u ++ b :: v).Perm (b :: l) := huv ▸ sorted_by_perm key (b :: l)
    exact (List.perm_middle.symm.trans h1).cons_inv
  have hsorted : List.Pairwise (fun a c => key a < key c) (u ++ v) := by
    have hs := sorted_by_strict key (b :: l) hn
    rw [huv] at hs
    exact hs.sublist ((List.sublist_cons_self b v).append_left u)
  have hnl : (l.map key).Nodup := by
    rw [List.map_cons] at hn
    exact hn.of_cons
  exact List.eq_of_perm_of_sorted ((sorted_by_perm key l).trans hperm.symm)
    (sorted_by_strict key l hnl) hsorted

/-- The traversal, rewritten through `shard_keyed`: sort the keyed shards by
name, then concatenate their file lists. -/
theorem article_files_in_order_keyed (c : Corpus α) :
    article_files_in_order c =
      (sorted_by Prod.fst
        ((c.entries.filter (fun d => d.is_dir)).map shard_keyed)).flatMap Prod.snd := by
  unfold article_files_in_order
  rw [← map_sorted_by shard_keyed (fun d => d.name) Prod.fst (fun _ => rfl)]
  rw [List.flatMap_map]
  rfl

/-- Determinism of the traversal: over the same unchanged tree — whatever
order the filesystem enumerates entries in — the visit order is identical,
provided directory names and per-shard file names are distinct (as they are
in a real directory tree). -/
theorem article_files_in_order_deterministic (c₁ c₂ : Corpus α)
    (hsame : Corpus.SameTree c₁ c₂)
    (hdirs : (c₁.entries.map (fun d => d.name)).Nodup)
    (hfiles : ∀ d ∈ c₁.entries, (d.files.map (fun f => f.name)).Nodup) :
    article_files_in_order c₁ = article_files_in_order c₂ := by
  obtain ⟨_, l, hperm, hf₂⟩ := hsame
  rw [article_files_in_order_keyed, article_files_in_order_keyed]
  have hstep1 : ((c₁.entries.filter (fun d => d.is_dir)).map shard_keyed).Perm
      ((l.filter (fun d => d.is_dir)).map shard_keyed) :=
    (hperm.filter _).map _
  have hmeml : ∀ d ∈ l, (d.files.map (fun f => f.name)).Nodup :=
    fun d hd => hfiles d (hperm.mem_iff.mpr hd)
  have hstep2 : (l.filter (fun d => d.is_dir)).map shard_keyed =
      (c₂.entries.filter (fun d => d.is_dir)).map shard_keyed := by
    apply map_eq_of_forall₂ (forall₂_filter hf₂ (fun a b hab => by rw [hab.2.1]))
    intro a ha b hab
    unfold shard_keyed
    rw [hab.1, shard_files_eq_of_perm hab.2.2 (hmeml a (List.mem_of_mem_filter ha))]
  have hnk : (((c₁.entries.filter (fun d => d.is_dir)).map shard_keyed).map Prod.fst).Nodup := by
    rw [List.map_map]
    exact hdirs.sublist ((List.filter_sublist _).map _)
  rw [sorted_by_eq_of_perm Prod.fst (hstep2 ▸ hstep1) hnk]

/-- Fault isolation at the traversal level: inserting one unparsable
`pmcid_*.xml` file into a shard of a corpus (whose names stay distinct, as
on a real filesystem) leaves the sequence of parseable files unchanged and
adds exactly one parse failure. -/
theorem insert_unparsable_isolated (c c' : Corpus α)
    (pre post : List (DirEntry α)) (d : DirEntry α) (bad : FileEntry α)
    (hc : c.entries = pre ++ d :: post)
    (hc' : c'.entries = pre ++ ⟨d.name, d.is_dir, bad :: d.files⟩ :: post)
    (hdir : d.is_dir = true)
    (hbadp : bad.parse = none)
    (hbadm : matches_pmcid_xml bad.name = true)
    (hnames : (c.entries.map (fun e => e.name)).Nodup)
    (hfn : ((bad :: d.files).map (fun f => f.name)).Nodup) :
    (article_files_in_order c').filterMap (fun f => f.parse) =
        (article_files_in_order c).filterMap (fun f => f.parse) ∧
      (article_files_in_order c').countP (fun f => f.parse.isNone) =
        (article_files_in_order c).countP (fun f => f.parse.isNone) + 1 := by
  classical
  set d' : DirEntry α := ⟨d.name, d.is_dir, bad :: d.files⟩ with hd'
  set g : DirEntry α → DirEntry α := fun e => if e = d then d' else e with hg
  have hne0 : c.entries.Nodup := hnames.of_map _
  have hne : (pre ++ d :: post).Nodup := hc ▸ hne0
  have hdnm : d ∉ pre ++ post := (List.nodup_cons.mp (List.nodup_middle.mp hne)).1
  have hdpre : ∀ e ∈ pre, g e = e := by
    intro e he
    have hneq : e ≠ d := fun h => hdnm (List.mem_append_left _ (h ▸ he))
    simp [hg, hneq]
  have hdpost : ∀ e ∈ post, g e = e := by
    intro e he
    have hneq : e ≠ d := fun h => hdnm (List.mem_append_right _ (h ▸ he))
    simp [hg, hneq]
  have hmap : c'.entries = c.entries.map g := by
    rw [hc, hc', List.map_append, List.map_cons]
    have h1 : pre.map g = pre := by
      rw [List.map_congr_left hdpre]; exact List.map_id _
    have h2 : post.map g = post := by
      rw [List.map_congr_left hdpost]; exact List.map_id _
    have h3 : g d = d' := by simp [hg]
    rw [h1, h2, h3]
  have hdirs : c'.entries.filter (fun e => e.is_dir) =
      (c.entries.filter (fun e => e.is_dir)).map g := by
    rw [hmap, List.filter_map]
    congr 1
    apply List.filter_congr
    intro e _
    by_cases h : e = d
    · subst h; simp [hg, hd']
    · simp [hg, h]
  have hsorted : sorted_by (fun e => e.name) (c'.entries.filter (fun e => e.is_dir)) =
      (sorted_by (fun e => e.name) (c.entries.filter (fun e => e.is_dir))).map g := by
    rw [hdirs]
    exact (map_sorted_by g (fun e => e.name) (fun e => e.name)
      (fun e => by by_cases h : e = d <;> simp [hg, hd', h]) _).symm
  have hd_in : d ∈ sorted_by (fun e => e.name) (c.entries.filter (fun e => e.is_dir)) := by
    apply ((sorted_by_perm _ _).mem_iff).mpr
    apply List.mem_filter.mpr
    exact ⟨by rw [hc]; exact List.mem_append_right _ (List.mem_cons_self _ _), hdir⟩
  obtain ⟨S₁, S₂, hS⟩ := List.append_of_mem hd_in
  have hSnodup : (S₁ ++ d :: S₂).Nodup := by
    rw [← hS]
    exact ((sorted_by_perm _ _).nodup_iff).mpr (hne0.sublist (List.filter_sublist _))
  have hdS : d ∉ S₁ ++ S₂ := (List.nodup_cons.mp (List.nodup_middle.mp hSnodup)).1
  have hgid : ∀ x ∈ S₁ ++ S₂, shard_files (g x) = shard_files x := by
    intro x hx
    have hneq : x ≠ d := fun h => hdS (h ▸ hx)
    simp [hg, hneq]
  have htrav : article_files_in_order c =
      S₁.flatMap shard_files ++ (shard_files d ++ S₂.flatMap shard_files) := by
    unfold article_files_in_order
    rw [hS, List.flatMap_append, List.flatMap_cons]
  have htrav' : article_files_in_order c' =
      S₁.flatMap shard_files ++ (shard_files d' ++ S₂.flatMap shard_files) := by
    unfold article_files_in_order
    rw [hsorted, List.flatMap_map, hS, List.flatMap_append, List.flatMap_cons]
    congr 1
    · exact flatMap_congr_mem (fun x hx => hgid x (List.mem_append_left _ hx))
    · congr 1
      · show shard_files (g d) = shard_files d'
        simp [hg]
      · exact flatMap_congr_mem (fun x hx => hgid x (List.mem_append_right _ hx))
  have hfilter : (bad :: d.files).filter (fun f => matches_pmcid_xml f.name) =
      bad :: d.files.filter (fun f => matches_pmcid_xml f.name) := by
    simp [List.filter_cons, hbadm]
  obtain ⟨u, v, hsp1, hsp2⟩ := sorted_by_cons_split (fun f => f.name) bad
    (d.files.filter (fun f => matches_pmcid_xml f.name))
    (hfn.sublist ((List.Sublist.cons₂ bad (List.filter_sublist _)).map _))
  have hsf' : shard_files d' = u ++ bad :: v := by
    show sorted_by _ ((bad :: d.files).filter _) = _
    rw [hfilter, hsp1]
  have hsf : shard_files d = u ++ v := by
    show sorted_by _ (d.files.filter _) = _
    rw [hsp2]
  rw [htrav, htrav', hsf, hsf']
  constructor
  · simp [List.filterMap_append, List.filterMap_cons, hbadp]
  · simp [List.countP_append, List.countP_cons, hbadp]
    omega

/-- `iter_articles` on a present corpus: yields the parseable files in
traversal order, counts unparseable ones, never fails. -/
theorem iter_articles_present (c : Corpus α) (hp : c.present = true) :
    iter_articles c =
      .ok ⟨(article_files_in_order c).filterMap (fun f => f.parse),
           (article_files_in_order c).countP (fun f => f.parse.isNone),
           (article_files_in_order c).length⟩ := by
  simp [iter_articles, assertExists, hp, iter_loop_spec]

/-- `extract_data` on a present corpus returns exactly the assembled
records (whatever the value of `articles_with_coords_only`). -/
theorem extract_data_present (ex : ExtractorSet α V) (c : Corpus α) (flag : Bool)
    (hp : c.present = true) :
    extract_data ex c flag = .ok (assembled_records ex c) := by
  simp [extract_data, iter_articles_present c hp, assertExists, hp, assembled_records]

/-- `extract_data_to_csv` when the corpus root is missing: nothing is
created, opened or written; the precondition error is raised. -/
theorem extract_data_to_csv_missing (ex : ExtractorSet α V) (plans : WriterPlans)
    (p : List String) (c : Corpus α) (od : Option (List String)) (flag : Bool)
    (hp : c.present = false) :
    extract_data_to_csv ex plans p c od flag =
      ⟨false, none, [], none, .error .missingPath⟩ := by
  simp [extract_data_to_csv, assertExists, hp]

/-- `extract_data_to_csv` on a present corpus whose stream completes without
a writer exception. -/
theorem extract_data_to_csv_ok (ex : ExtractorSet α V) (plans : WriterPlans)
    (p : List String) (c : Corpus α) (od : Option (List String)) (flag : Bool)
    (hp : c.present = true) (ws : List (CSVWriter V)) (n : Nat)
    (hsl : stream_loop (open_writers plans) (assembled_records ex c) 0 = (ws, n, none)) :
    extract_data_to_csv ex plans p c od flag =
      ⟨true, some (get_output_dir p od flag), close_all ws, some n,
       .ok (get_output_dir p od flag, 0)⟩ := by
  simp [extract_data_to_csv, assertExists, hp, extract_data_present ex c flag hp, hsl]

/-- `extract_data_to_csv` on a present corpus when some writer's append
raises mid-stream. -/
theorem extract_data_to_csv_writer_raises (ex : ExtractorSet α V) (plans : WriterPlans)
    (p : List String) (c : Corpus α) (od : Option (List String)) (flag : Bool)
    (hp : c.present = true) (ws : List (CSVWriter V)) (n : Nat) (w : String)
    (hsl : stream_loop (open_writers plans) (assembled_records ex c) 0 = (ws, n, some w)) :
    extract_data_to_csv ex plans p c od flag =
      ⟨true, some (get_output_dir p od flag), close_all ws, none,
       .error (.writerFailure w)⟩ := by
  simp [extract_data_to_csv, assertExists, hp, extract_data_present ex c flag hp, hsl]

/-! ### Claims -/

/-- **C9**: for every document yielded by the Article Source, the Article
Record built by `extract_data` has as its key set exactly the names of the
registered extractors — `coordinates`, `metadata`, `text` — even when an
extractor produced an empty result for that document. -/
theorem c9_record_keys_are_registered_extractors (ex : ExtractorSet α V)
    (articles_dir : Corpus α) (flag : Bool) (records : List (Record V))
    (h : extract_data ex articles_dir flag = .ok records) :
    ∀ r ∈ records, r.map Prod.fst = ["coordinates", "metadata", "text"] := by
  cases hp : articles_dir.present with
  | false => simp [extract_data, iter_articles, assertExists, hp] at h
  | true =>
    rw [extract_data_present ex articles_dir flag hp] at h
    cases h
    intro r hr
    obtain ⟨a, _, rfl⟩ := List.mem_map.1 hr
    rfl

/-- **C9 witness**: the record assembled for the single article of the tiny
corpus — whose text extractor returned an empty mapping — has exactly the
three registered extractor names as keys. -/
theorem c9_witness :
    (article_record sampleExtractors 1).map Prod.fst =
      ["coordinates", "metadata", "text"] :=
  c9_record_keys_are_registered_extractors sampleExtractors tinyCorpus true
    (assembled_records sampleExtractors tinyCorpus) (by rfl)
    (article_record sampleExtractors 1) (by decide)

/-- **C10**: whenever `extract_data_to_csv` returns rather than raises, the
returned value is the resolved output directory paired with exit code 0 —
including on runs where some or all article files failed to parse. -/
theorem c10_returns_output_dir_and_exit_code_zero (ex : ExtractorSet α V)
    (plans : WriterPlans) (p : List String) (c : Corpus α)
    (od : Option (List String)) (flag : Bool) (out : List String) (code : Nat)
    (h : (extract_data_to_csv ex plans p c od flag).returned = .ok (out, code)) :
    out = get_output_dir p od flag ∧ code = 0 := by
  cases hp : c.present with
  | false => rw [extract_data_to_csv_missing ex plans p c od flag hp] at h; cases h
  | true =>
    rcases hsl : stream_loop (open_writers plans) (assembled_records ex c) 0
      with ⟨ws, n, err⟩
    cases err with
    | some w =>
      rw [extract_data_to_csv_writer_raises ex plans p c od flag hp ws n w hsl] at h
      cases h
    | none =>
      rw [extract_data_to_csv_ok ex plans p c od flag hp ws n hsl] at h
      exact ⟨(Prod.mk.injEq .. ▸ Except.ok.injEq .. ▸ h).1.symm ▸ rfl, by
        cases h; rfl⟩

/-- **C10 witness**: a concrete completed run returned its resolved output
directory (the sibling `subset_allArticles_extractedData`) and exit code 0. -/
theorem c10_witness :
    (["subset_allArticles_extractedData"] : List String) =
        get_output_dir ["articles"] none false ∧ (0 : Nat) = 0 :=
  c10_returns_output_dir_and_exit_code_zero sampleExtractors sampleWriterPlans
    ["articles"] tinyCorpus none false ["subset_allArticles_extractedData"] 0 (by rfl)

/-- **C2**: for every completed run of `extract_data_to_csv`, every assembled
Article Record is handed to every registered Table Writer exactly once —
each writer's append sequence is exactly the assembled record list — and the
`n_articles` count written to the run summary equals that shared number of
records. -/
theorem c2_every_writer_fed_each_record_once (ex : ExtractorSet α V)
    (plans : WriterPlans) (p : List String) (c : Corpus α)
    (od : Option (List String)) (flag : Bool) (v : List String × Nat)
    (h : (extract_data_to_csv ex plans p c od flag).returned = .ok v) :
    (∀ w ∈ (extract_data_to_csv ex plans p c od flag).writers,
        w.written = assembled_records ex c) ∧
      (extract_data_to_csv ex plans p c od flag).info_json =
        some (assembled_records ex c).length := by
  cases hp : c.present with
  | false => rw [extract_data_to_csv_missing ex plans p c od flag hp] at h; cases h
  | true =>
    rcases hsl : stream_loop (open_writers plans) (assembled_records ex c) 0
      with ⟨ws, n, err⟩
    cases err with
    | some w =>
      rw [extract_data_to_csv_writer_raises ex plans p c od flag hp ws n w hsl] at h
      cases h
    | none =>
      obtain ⟨h1, h2⟩ := stream_loop_none (assembled_records ex c) (open_writers plans) 0
        (by rw [hsl])
      rw [hsl] at h1 h2
      dsimp only at h1 h2
      rw [extract_data_to_csv_ok ex plans p c od flag hp ws n hsl]
      constructor
      · intro w hw
        subst h1
        simp only [close_all, open_writers, List.map_cons, List.map_nil, List.mem_cons,
          List.not_mem_nil, or_false] at hw
        rcases hw with rfl | rfl | rfl
        · rfl
        · rfl
        · rfl
      · show some n = _
        rw [h2]
        simp

/-- **C2 witness**: on the §8 scenario corpus each of the three writers
received exactly the three assembled records, and `info.json` recorded 3. -/
theorem c2_witness :
    (∀ w ∈ (extract_data_to_csv sampleExtractors sampleWriterPlans ["articles"]
        sampleCorpus none false).writers,
      w.written = assembled_records sampleExtractors sampleCorpus) ∧
      (extract_data_to_csv sampleExtractors sampleWriterPlans ["articles"]
          sampleCorpus none false).info_json =
        some (assembled_records sampleExtractors sampleCorpus).length :=
  c2_every_writer_fed_each_record_once sampleExtractors sampleWriterPlans
    ["articles"] sampleCorpus none false
    (["subset_allArticles_extractedData"], 0) (by rfl)

/-- **C3**: if a Table Writer's append raises during the streaming loop, the
exception unwinds the batch: every writer that was opened is observed closed
(flushed) afterwards, no `info.json` is produced, and the run surfaces to the
caller as a failure carrying the writer's name. -/
theorem c3_writer_failure_closes_all_writes_no_info (ex : ExtractorSet α V)
    (plans : WriterPlans) (p : List String) (c : Corpus α)
    (od : Option (List String)) (flag : Bool)
    (hp : c.present = true) (ws : List (CSVWriter V)) (n : Nat) (w : String)
    (hsl : stream_loop (open_writers plans) (assembled_records ex c) 0 = (ws, n, some w)) :
    (∀ x ∈ (extract_data_to_csv ex plans p c od flag).writers, x.closed = true) ∧
      (extract_data_to_csv ex plans p c od flag).info_json = none ∧
      (extract_data_to_csv ex plans p c od flag).returned =
        .error (.writerFailure w) := by
  rw [extract_data_to_csv_writer_raises ex plans p c od flag hp ws n w hsl]
  refine ⟨?_, rfl, rfl⟩
  intro x hx
  simp only [close_all, List.mem_map] at hx
  obtain ⟨x₀, _, rfl⟩ := hx
  rfl

/-- The writer states at the moment the text writer raises on its second
append during the C3 scenario. -/
def c3FailedWriters : List (CSVWriter FieldValue) :=
  (stream_loop (open_writers textFailsSecond)
    (assembled_records sampleExtractors sampleCorpus) 0).1

/-- **C3 witness**: on the §8 scenario corpus with a text writer that raises
on its second append, all writers end up closed, no `info.json` exists, and
the run fails with the text writer's error. -/
theorem c3_witness :
    (∀ x ∈ (extract_data_to_csv sampleExtractors textFailsSecond ["articles"]
        sampleCorpus none false).writers, x.closed = true) ∧
      (extract_data_to_csv sampleExtractors textFailsSecond ["articles"]
          sampleCorpus none false).info_json = none ∧
      (extract_data_to_csv sampleExtractors textFailsSecond ["articles"]
          sampleCorpus none false).returned =
        .error (.writerFailure "text") :=
  c3_writer_failure_closes_all_writes_no_info sampleExtractors textFailsSecond
    ["articles"] sampleCorpus none false rfl c3FailedWriters 2 "text" (by rfl)

/-- **C7**: when the corpus root does not exist, the operation fails before
any document is yielded and before any output work: `iter_articles` and
`extract_data` raise before their first yield, and `extract_data_to_csv`
raises before creating the output directory or opening any writer. -/
theorem c7_missing_root_fails_before_any_work (ex : ExtractorSet α V)
    (plans : WriterPlans) (p : List String) (c : Corpus α)
    (od : Option (List String)) (flag : Bool) (hmiss : c.present = false) :
    iter_articles c = .error .missingPath ∧
      extract_data ex c flag = .error .missingPath ∧
      extract_data_to_csv ex plans p c od flag =
        ⟨false, none, [], none, .error .missingPath⟩ := by
  refine ⟨?_, ?_, extract_data_to_csv_missing ex plans p c od flag hmiss⟩
  · simp [iter_articles, assertExists, hmiss]
  · simp [extract_data, assertExists, hmiss]

/-- **C7 witness**: on a concrete missing corpus root, all three operations
fail up front with the precondition error: no articles yielded, no output
directory created, no writer opened. -/
theorem c7_witness :
    iter_articles missingCorpus = .error .missingPath ∧
      extract_data sampleExtractors missingCorpus true = .error .missingPath ∧
      extract_data_to_csv sampleExtractors sampleWriterPlans ["articles"]
          missingCorpus none true =
        ⟨false, none, [], none, .error .missingPath⟩ :=
  c7_missing_root_fails_before_any_work sampleExtractors sampleWriterPlans
    ["articles"] missingCorpus none true rfl

/-- **C8**: a run of `extract_data_to_csv` that completes always writes
`info.json`, recording the processed-record count under `n_articles`; a run
that processes zero documents still completes and records `n_articles = 0`;
an interrupted run — one that raises — leaves no `info.json`. -/
theorem c8_info_json_exactly_on_completion (ex : ExtractorSet α V)
    (plans : WriterPlans) (p : List String) (c : Corpus α)
    (od : Option (List String)) (flag : Bool) :
    (∀ v, (extract_data_to_csv ex plans p c od flag).returned = .ok v →
        (extract_data_to_csv ex plans p c od flag).info_json =
          some (assembled_records ex c).length) ∧
      (c.present = true → assembled_records ex c = [] →
        (extract_data_to_csv ex plans p c od flag).returned =
            .ok (get_output_dir p od flag, 0) ∧
          (extract_data_to_csv ex plans p c od flag).info_json = some 0) ∧
      (∀ e, (extract_data_to_csv ex plans p c od flag).returned = .error e →
        (extract_data_to_csv ex plans p c od flag).info_json = none) := by
  refine ⟨?_, ?_, ?_⟩
  · intro v h
    exact (c2_every_writer_fed_each_record_once ex plans p c od flag v h).2
  · intro hp hempty
    have hsl : stream_loop (V := V) (open_writers plans) (assembled_records ex c) 0 =
        (open_writers plans, 0, none) := by
      rw [hempty]; rfl
    rw [extract_data_to_csv_ok ex plans p c od flag hp (open_writers plans) 0 hsl]
    exact ⟨rfl, rfl⟩
  · intro e h
    cases hp : c.present with
    | false => rw [extract_data_to_csv_missing ex plans p c od flag hp]
    | true =>
      rcases hsl : stream_loop (open_writers plans) (assembled_records ex c) 0
        with ⟨ws, n, err⟩
      cases err with
      | some w => rw [extract_data_to_csv_writer_raises ex plans p c od flag hp ws n w hsl]
      | none =>
        rw [extract_data_to_csv_ok ex plans p c od flag hp ws n hsl] at h
        cases h

/-- **C8 witness**: a run over a present corpus with no documents completes,
returns normally, and records `n_articles = 0` in `info.json`. -/
theorem c8_witness :
    (extract_data_to_csv sampleExtractors sampleWriterPlans ["articles"]
          emptyCorpus none false).returned =
        .ok (get_output_dir ["articles"] none false, 0) ∧
      (extract_data_to_csv sampleExtractors sampleWriterPlans ["articles"]
          emptyCorpus none false).info_json = some 0 :=
  (c8_info_json_exactly_on_completion sampleExtractors sampleWriterPlans
    ["articles"] emptyCorpus none false).2.1 rfl (by rfl)

/-- **C1**: the coordinates-only filter is not implemented.  On a corpus
whose single document's coordinate extraction yields zero rows, a run with
`articles_with_coords_only = true` still hands the document's Article Record
to every table writer and records `n_articles = 1` in the run summary —
`extract_data` accepts the flag but its body never reads it, contradicting
its own docstring ("If true, articles that contain no stereotactic
coordinates are ignored"). -/
theorem c1_coords_only_filter_not_applied :
    sampleExtractors.coordinates 9 = FieldValue.table [] ∧
      (extract_data_to_csv sampleExtractors sampleWriterPlans ["articles"]
          noCoordsCorpus none true).writers.map (fun w => (w.name, w.written)) =
        [("metadata", [article_record sampleExtractors 9]),
         ("text", [article_record sampleExtractors 9]),
         ("coordinates", [article_record sampleExtractors 9])] ∧
      (extract_data_to_csv sampleExtractors sampleWriterPlans ["articles"]
          noCoordsCorpus none true).info_json = some 1 := by
  refine ⟨rfl, rfl, rfl⟩

/-- **C4**: `iter_articles` enumerates shard subdirectories sorted
lexicographically by name and, within each shard, the article files matching
`pmcid_*.xml` sorted lexicographically by filename, so two runs over an
unchanged directory tree yield the identical document sequence, independent
of filesystem enumeration order (directory trees have pairwise-distinct
names at each level). -/
theorem c4_sorted_deterministic_traversal (c₁ c₂ : Corpus α)
    (hsame : Corpus.SameTree c₁ c₂)
    (hdirs : (c₁.entries.map (fun d => d.name)).Nodup)
    (hfiles : ∀ d ∈ c₁.entries, (d.files.map (fun f => f.name)).Nodup) :
    List.Pairwise (fun a b => a ≤ b)
        ((sorted_by (fun d => d.name) (c₁.entries.filter (fun d => d.is_dir))).map
          (fun d => d.name)) ∧
      (∀ d : DirEntry α,
        List.Pairwise (fun a b => a ≤ b) ((shard_files d).map (fun f => f.name)) ∧
          ∀ f ∈ shard_files d, matches_pmcid_xml f.name = true) ∧
      iter_articles c₁ = iter_articles c₂ := by
  refine ⟨List.pairwise_map.mpr (sorted_by_pairwise _ _), ?_, ?_⟩
  · intro d
    refine ⟨List.pairwise_map.mpr (sorted_by_pairwise _ _), ?_⟩
    intro f hf
    have hf' : f ∈ d.files.filter (fun f => matches_pmcid_xml f.name) :=
      ((sorted_by_perm (fun f => f.name)
        (d.files.filter (fun f => matches_pmcid_xml f.name))).mem_iff).mp hf
    exact (List.mem_filter.mp hf').2
  · unfold iter_articles
    rw [hsame.1, article_files_in_order_deterministic c₁ c₂ hsame hdirs hfiles]

/-- **C4 witness**: the §8 scenario corpus and the same tree enumerated in a
different filesystem order produce identical `iter_articles` outcomes. -/
theorem c4_witness : iter_articles sampleCorpus = iter_articles shuffledCorpus :=
  (c4_sorted_deterministic_traversal sampleCorpus shuffledCorpus
    ⟨rfl,
     [⟨"stray.txt".toList, false, []⟩,
      ⟨"000".toList, true,
       [⟨"pmcid_5.xml".toList, some 5⟩, ⟨"pmcid_2.xml".toList, none⟩,
        ⟨"pmcid_1.xml".toList, some 1⟩]⟩,
      ⟨"001".toList, true,
       [⟨"pmcid_9.xml".toList, some 9⟩, ⟨"README".toList, some 99⟩]⟩],
     by decide,
     .cons ⟨rfl, rfl, by decide⟩
       (.cons ⟨rfl, rfl, by decide⟩ (.cons ⟨rfl, rfl, by decide⟩ .nil))⟩
    (by decide) (by decide)).2.2

/-- **C6**: every file in the traversal that fails to parse is recorded
(counted in `n_failures`, with a logged diagnostic), skipped, and the
iteration continues: the yielded articles are exactly the parses of the
parseable files in traversal order, and the result is `.ok` — a parse
failure never aborts the sequence.  Moreover, inserting one unparsable
article file into a shard changes only the failure counter: every other
document is yielded unchanged, in the same order. -/
theorem c6_parse_failures_counted_skipped_isolated (c : Corpus α)
    (hp : c.present = true) :
    iter_articles c =
        .ok ⟨(article_files_in_order c).filterMap (fun f => f.parse),
             (article_files_in_order c).countP (fun f => f.parse.isNone),
             (article_files_in_order c).length⟩ ∧
      ∀ (c' : Corpus α) (pre post : List (DirEntry α)) (d : DirEntry α)
        (bad : FileEntry α),
        c'.present = true →
        c.entries = pre ++ d :: post →
        c'.entries = pre ++ ⟨d.name, d.is_dir, bad :: d.files⟩ :: post →
        d.is_dir = true →
        bad.parse = none →
        matches_pmcid_xml bad.name = true →
        (c.entries.map (fun e => e.name)).Nodup →
        ((bad :: d.files).map (fun f => f.name)).Nodup →
        ∃ res res', iter_articles c = .ok res ∧ iter_articles c' = .ok res' ∧
          res'.articles = res.articles ∧ res'.n_failures = res.n_failures + 1 := by
  refine ⟨iter_articles_present c hp, ?_⟩
  intro c' pre post d bad hp' hc hc' hdir hbadp hbadm hnames hfn
  obtain ⟨h1, h2⟩ := insert_unparsable_isolated c c' pre post d bad hc hc' hdir
    hbadp hbadm hnames hfn
  exact ⟨_, _, iter_articles_present c hp, iter_articles_present c' hp',
    h1, by rw [h2]⟩

/-- **C6 witness**: adding the unparsable `pmcid_3.xml` to shard `000` of
the §8 scenario corpus leaves the yielded articles identical and increments
the failure count from 1 to 2. -/
theorem c6_witness :
    ∃ res res', iter_articles sampleCorpus = .ok res ∧
      iter_articles corruptedCorpus = .ok res' ∧
      res'.articles = res.articles ∧ res'.n_failures = res.n_failures + 1 :=
  (c6_parse_failures_counted_skipped_isolated sampleCorpus rfl).2
    corruptedCorpus
    [⟨"001".toList, true, [⟨"pmcid_9.xml".toList, some 9⟩, ⟨"README".toList, some 99⟩]⟩]
    [⟨"stray.txt".toList, false, []⟩]
    ⟨"000".toList, true,
     [⟨"pmcid_5.xml".toList, some 5⟩, ⟨"pmcid_2.xml".toList, none⟩,
      ⟨"pmcid_1.xml".toList, some 1⟩]⟩
    ⟨"pmcid_3.xml".toList, none⟩
    rfl rfl rfl rfl rfl (by decide) (by decide) (by decide)

/-- **C5 counterexample**: `TextExtractor.extract` is not exception-free.
When the stylesheet transform succeeds but the transformed document lacks the
`pmcid` element, `transformed.find` returns `None` and the attribute access
`elem.text` raises `AttributeError` out of `extract` instead of producing an
empty fields mapping. -/
theorem c5_counterexample :
    extract_text_from_article emptyTransformSheet () = .error .attributeError := rfl

/-- **C5 (amended)**: when the XSLT transform of the document raises, the
error is caught and logged and `extract` returns the empty — yet valid —
fields mapping rather than propagating, so a transform failure never aborts
processing of the remaining documents; failures after a successful transform
(a missing part element, or a `pmcid` text that is not an integer literal)
are outside the guard and propagate. -/
theorem c5_transform_failure_returns_empty (stylesheet : α → Except String TransformedDoc)
    (article : α) (e : String) (h : stylesheet article = .error e) :
    extract_text_from_article stylesheet article = .ok [] := by
  simp [extract_text_from_article, h]

/-- **C5 witness**: a concrete failing transform yields the empty mapping. -/
theorem c5_witness : extract_text_from_article failingSheet () = .ok [] :=
  c5_transform_failure_returns_empty failingSheet () "transform failed" rfl

end Nqdc
